import Mathlib

/-!
A verification development for the local data-management layer of the
biz-optima-ai repository (`src/services/dataManager.ts`).

Modelling conventions (shallow embedding):
* Text values are lists of characters (`Str`); JavaScript string falsiness
  (`"" is falsy`) is modelled explicitly where the source relies on `||`.
* The numeric fields (revenue, costs, ...) are modelled as `Int`.  The
  source uses JavaScript numbers; every claim under study only involves
  integer values, and `Number(...)` applied to the decimal string of an
  integer returns that integer in JavaScript exactly as in this model.
* Timestamps (`new Date()`, `Date.now()`) are modelled as an explicit
  `now : Nat` argument; the nondeterministic `generateId()` is modelled as
  an explicit `freshId : Str` argument, and the current date string used
  as a record-date default as an explicit `today : Str` argument.
* The sort comparator `new Date(a.date).getTime() - new Date(b.date).getTime()`
  is modelled as lexicographic character comparison of the date strings,
  which agrees with timestamp comparison on the `YYYY-MM-DD` strings the
  system documents and uses.
* `localStorage` is modelled as a `Storage` record with one optional slot
  per key; `JSON.stringify`/`JSON.parse` round-trips are modelled by
  storing the values themselves.
-/

/-- Text is modelled as a list of characters. -/
abbrev Str := List Char

/-- JavaScript `a || d` where `a` is an optionally-present string value:
`undefined` and the empty string are falsy. -/
def jsOrStr (a : Option Str) (d : Str) : Str :=
  match a with
  | some s => if s = [] then d else s
  | none => d

/-- JavaScript `a || d` where `a` is an optionally-present numeric value:
`undefined` and `0` are falsy. -/
def jsOrNum (a : Option Int) (d : Int) : Int :=
  match a with
  | some n => if n = 0 then d else n
  | none => d

/-- Decimal digit character, used to model JavaScript number-to-string
conversion for integers. -/
def digitChar (d : Nat) : Char :=
  match d with
  | 0 => '0'
  | 1 => '1'
  | 2 => '2'
  | 3 => '3'
  | 4 => '4'
  | 5 => '5'
  | 6 => '6'
  | 7 => '7'
  | 8 => '8'
  | 9 => '9'
  | _ => '*'

/-- Fuel-driven digit-string worker; the fuel argument only forces
structural termination and any fuel above the number value is equivalent. -/
def natToDigitsGo : Nat → Nat → Str
  | 0, _ => []
  | fuel + 1, n =>
    if n < 10 then [digitChar n]
    else natToDigitsGo fuel (n / 10) ++ [digitChar (n % 10)]

/-- Decimal digit string of a natural number (JavaScript `String(n)`). -/
def natToDigits (n : Nat) : Str :=
  natToDigitsGo (n + 1) n

theorem natToDigitsGo_fuel (f1 : Nat) : ∀ (f2 n : Nat), n < f1 → n < f2 →
    natToDigitsGo f1 n = natToDigitsGo f2 n := by
  induction f1 with
  | zero => omega
  | succ g ih =>
    intro f2 n h1 h2
    cases f2 with
    | zero => omega
    | succ h =>
      unfold natToDigitsGo
      by_cases hn : n < 10
      · rw [if_pos hn, if_pos hn]
      · rw [if_neg hn, if_neg hn]
        congr 1
        exact ih h (n / 10) (by omega) (by omega)

/-- Recurrence of `natToDigits`, matching its recursive reading. -/
theorem natToDigits_step (n : Nat) :
    natToDigits n = if n < 10 then [digitChar n]
      else natToDigits (n / 10) ++ [digitChar (n % 10)] := by
  show natToDigitsGo (n + 1) n = _
  unfold natToDigitsGo
  by_cases h : n < 10
  · rw [if_pos h, if_pos h]
  · rw [if_neg h, if_neg h]
    congr 1
    exact natToDigitsGo_fuel n (n / 10 + 1) (n / 10) (by omega) (by omega)

/-- Decimal string of an integer (JavaScript template interpolation of an
integer-valued number, e.g. `${record.revenue}`). -/
def intStr : Int → Str
  | .ofNat m => natToDigits m
  | .negSucc m => '-' :: natToDigits (m + 1)

/-- Numeric value of a decimal digit character, `none` for non-digits. -/
def digitVal (c : Char) : Option Nat :=
  if '0' ≤ c ∧ c ≤ '9' then some (c.toNat - 48) else none

/-- Accumulating decimal parser over a digit string. -/
def digitsValGo : Str → Nat → Option Nat
  | [], acc => some acc
  | c :: cs, acc =>
    match digitVal c with
    | some d => digitsValGo cs (10 * acc + d)
    | none => none

/-- JavaScript `Number(s)` restricted to integer literals: the empty string
is `0`, an optional leading minus sign followed by decimal digits is the
signed value, and anything else (which `Number` would map to `NaN` or to a
non-integer, both of which every use-site collapses to the default via
`|| 0`) is `none`. -/
def jsNumber (s : Str) : Option Int :=
  match s with
  | [] => some 0
  | c :: cs =>
    if c = '-' then
      if cs = [] then none
      else (digitsValGo cs 0).map (fun m => -(m : Int))
    else (digitsValGo (c :: cs) 0).map (fun m => (m : Int))

/-- JavaScript `Number(x) || 0` for an optionally-present string value. -/
def numOr0 (a : Option Str) : Int :=
  match a with
  | none => 0
  | some s => (jsNumber s).getD 0

/-- Whitespace characters stripped by `String.prototype.trim`. -/
def isSpChar (c : Char) : Bool :=
  c == ' ' || c == '\t' || c == '\n' || c == '\r'

/-- Characters that interact with no part of the CSV pipeline: not
whitespace, not a comma, not a double quote. -/
def plainChar (c : Char) : Bool :=
  !isSpChar c && c != ',' && c != '"'

theorem digitVal_digitChar (d : Nat) (h : d < 10) : digitVal (digitChar d) = some d := by
  interval_cases d <;> decide

theorem digitChar_plain (d : Nat) (h : d < 10) :
    plainChar (digitChar d) = true ∧ digitChar d ≠ '-' ∧ digitChar d ≠ '\n' := by
  interval_cases d <;> exact ⟨rfl, by decide, by decide⟩

theorem digitsValGo_append (l1 l2 : Str) (acc : Nat) :
    digitsValGo (l1 ++ l2) acc =
      match digitsValGo l1 acc with
      | some v => digitsValGo l2 v
      | none => none := by
  induction l1 generalizing acc with
  | nil => rfl
  | cons c cs ih =>
    simp only [List.cons_append, digitsValGo]
    cases digitVal c with
    | none => rfl
    | some d => exact ih _

theorem natToDigits_ne_nil (n : Nat) : natToDigits n ≠ [] := by
  rw [natToDigits_step]
  split
  · simp
  · simp

theorem natToDigits_mem (n : Nat) : ∀ c ∈ natToDigits n, ∃ d, d < 10 ∧ c = digitChar d := by
  induction n using Nat.strong_induction_on with
  | _ n ih =>
    rw [natToDigits_step]
    split
    · next h =>
      intro c hc
      simp only [List.mem_singleton] at hc
      exact ⟨n, h, hc⟩
    · next h =>
      intro c hc
      simp only [List.mem_append, List.mem_singleton] at hc
      rcases hc with hc | hc
      · exact ih (n / 10) (Nat.div_lt_self (by omega) (by omega)) c hc
      · exact ⟨n % 10, Nat.mod_lt _ (by omega), hc⟩

theorem natToDigits_val (n : Nat) : digitsValGo (natToDigits n) 0 = some n := by
  induction n using Nat.strong_induction_on with
  | _ n ih =>
    rw [natToDigits_step]
    split
    · next h =>
      simp [digitsValGo, digitVal_digitChar n h]
    · next h =>
      rw [digitsValGo_append, ih (n / 10) (Nat.div_lt_self (by omega) (by omega))]
      simp only [digitsValGo, digitVal_digitChar (n % 10) (Nat.mod_lt _ (by omega))]
      have : 10 * (n / 10) + n % 10 = n := by omega
      rw [this]

theorem intStr_ne_nil (n : Int) : intStr n ≠ [] := by
  cases n with
  | ofNat m => exact natToDigits_ne_nil m
  | negSucc m => simp [intStr]

theorem intStr_plain (n : Int) : ∀ c ∈ intStr n, plainChar c = true := by
  cases n with
  | ofNat m =>
    intro c hc
    obtain ⟨d, hd, rfl⟩ := natToDigits_mem m c hc
    exact (digitChar_plain d hd).1
  | negSucc m =>
    intro c hc
    simp only [intStr, List.mem_cons] at hc
    rcases hc with rfl | hc
    · rfl
    · obtain ⟨d, hd, rfl⟩ := natToDigits_mem (m + 1) c hc
      exact (digitChar_plain d hd).1

theorem jsNumber_intStr (n : Int) : jsNumber (intStr n) = some n := by
  cases n with
  | ofNat m =>
    show jsNumber (natToDigits m) = some (Int.ofNat m)
    cases hd : natToDigits m with
    | nil => exact absurd hd (natToDigits_ne_nil m)
    | cons c cs =>
      have hc : c ≠ '-' := by
        obtain ⟨d, hlt, rfl⟩ := natToDigits_mem m c (by rw [hd]; exact List.mem_cons_self _ _)
        exact (digitChar_plain d hlt).2.1
      simp only [jsNumber, if_neg hc]
      rw [← hd, natToDigits_val]
      rfl
  | negSucc m =>
    show jsNumber ('-' :: natToDigits (m + 1)) = some (Int.negSucc m)
    simp only [jsNumber, if_pos rfl, if_neg (natToDigits_ne_nil (m + 1)), natToDigits_val]
    simp [Int.negSucc_eq]

/-- Lexicographic comparison of character lists, modelling the ascending
date comparator `new Date(a.date).getTime() - new Date(b.date).getTime()`
on the `YYYY-MM-DD` date strings used throughout the system. -/
def strCmp : Str → Str → Ordering
  | [], [] => .eq
  | [], _ :: _ => .lt
  | _ :: _, [] => .gt
  | a :: as, b :: bs =>
    if a < b then .lt
    else if b < a then .gt
    else strCmp as bs

theorem strCmp_eq_iff (a b : Str) : strCmp a b = .eq ↔ a = b := by
  induction a generalizing b with
  | nil => cases b <;> simp [strCmp]
  | cons x xs ih =>
    cases b with
    | nil => simp [strCmp]
    | cons y ys =>
      simp only [strCmp]
      by_cases h1 : x < y
      · simp [h1, ne_of_lt h1]
      · by_cases h2 : y < x
        · simp [h1, h2, (ne_of_lt h2).symm]
        · have hxy : x = y := le_antisymm (not_lt.mp h2) (not_lt.mp h1)
          subst hxy
          simp [h1, ih]

theorem strCmp_swap (a b : Str) : (strCmp a b).swap = strCmp b a := by
  induction a generalizing b with
  | nil => cases b <;> rfl
  | cons x xs ih =>
    cases b with
    | nil => rfl
    | cons y ys =>
      simp only [strCmp]
      by_cases h1 : x < y
      · simp [h1, not_lt_of_lt h1, Ordering.swap]
      · by_cases h2 : y < x
        · simp [h1, h2, Ordering.swap]
        · simp [h1, h2, ih]

theorem strCmp_lt_trans {a b c : Str} (h1 : strCmp a b = .lt) (h2 : strCmp b c = .lt) :
    strCmp a c = .lt := by
  induction a generalizing b c with
  | nil =>
    cases b with
    | nil => simp [strCmp] at h1
    | cons y ys =>
      cases c with
      | nil => simp [strCmp] at h2
      | cons z zs => rfl
  | cons x xs ih =>
    cases b with
    | nil => simp [strCmp] at h1
    | cons y ys =>
      cases c with
      | nil => simp [strCmp] at h2
      | cons z zs =>
        simp only [strCmp] at h1 h2 ⊢
        by_cases hxy : x < y
        · by_cases hyz : y < z
          · simp [lt_trans hxy hyz]
          · by_cases hzy : z < y
            · simp [hyz, hzy] at h2
            · have : y = z := le_antisymm (not_lt.mp hzy) (not_lt.mp hyz)
              subst this
              simp [hxy]
        · by_cases hyx : y < x
          · simp [hxy, hyx] at h1
          · have : x = y := le_antisymm (not_lt.mp hyx) (not_lt.mp hxy)
            subst this
            by_cases hyz : x < z
            · simp [hyz]
            · by_cases hzy : z < x
              · simp [hyz, hzy] at h2
              · have : x = z := le_antisymm (not_lt.mp hzy) (not_lt.mp hyz)
                subst this
                simp only [if_neg (lt_irrefl x)] at h1 h2 ⊢
                exact ih h1 h2

theorem strCmp_lt_of_ne_gt_of_ne {a b : Str} (h1 : strCmp a b ≠ .gt) (h2 : a ≠ b) :
    strCmp a b = .lt := by
  cases h : strCmp a b with
  | lt => rfl
  | eq => exact absurd ((strCmp_eq_iff a b).mp h) h2
  | gt => exact absurd h h1

theorem strCmp_gt_iff (a b : Str) : strCmp a b = .gt ↔ strCmp b a = .lt := by
  constructor
  · intro h
    have := strCmp_swap a b
    rw [h] at this
    exact this.symm
  · intro h
    have := strCmp_swap b a
    rw [h] at this
    cases hab : strCmp a b <;> rw [hab] at this <;> first | rfl | exact absurd this (by decide)

/-!
Data model: the three entity kinds of `dataManager.ts` (`BusinessData`,
`FinancialRecord`, `KPIData`).  `category` is kept as free text because the
source casts whatever the spreadsheet contains with `as KPIData['category']`
without validating it.
-/

/-- Model of the `BusinessData` interface (the singleton Profile). -/
structure BusinessData where
  id : Str
  companyName : Str
  industry : Str
  employees : Int
  revenue : Int
  costs : Int
  assets : Int
  liabilities : Int
  cashFlow : Int
  createdAt : Nat
  updatedAt : Nat
deriving DecidableEq, Repr

/-- Model of the `FinancialRecord` interface (one time-series record). -/
structure FinancialRecord where
  date : Str
  revenue : Int
  expenses : Int
  profit : Int
  cashFlow : Int
deriving DecidableEq, Repr

/-- Model of the `KPIData` interface (one indicator). -/
structure KPIData where
  metric : Str
  value : Int
  target : Int
  unit : Str
  category : Str
deriving DecidableEq, Repr

/-- Model of `Partial<BusinessData>` as passed to `setBusinessData`: each
field optionally present.  (`updatedAt` is accepted by the TypeScript type
but never read by the implementation.) -/
structure BusinessDataPatch where
  id : Option Str := none
  companyName : Option Str := none
  industry : Option Str := none
  employees : Option Int := none
  revenue : Option Int := none
  costs : Option Int := none
  assets : Option Int := none
  liabilities : Option Int := none
  cashFlow : Option Int := none
  createdAt : Option Nat := none
  updatedAt : Option Nat := none
deriving DecidableEq, Repr

/-- Model of the argument of `addFinancialRecord`:
`Omit<FinancialRecord, 'date'> & { date?: string }`. -/
structure FinancialRecordInput where
  date : Option Str := none
  revenue : Int
  expenses : Int
  profit : Int
  cashFlow : Int
deriving DecidableEq, Repr

/-- Model of `Partial<FinancialRecord>` as passed to `updateFinancialRecord`. -/
structure FinancialRecordPatch where
  date : Option Str := none
  revenue : Option Int := none
  expenses : Option Int := none
  profit : Option Int := none
  cashFlow : Option Int := none
deriving DecidableEq, Repr

/-- Model of `Partial<KPIData>` as passed to `updateKPI`. -/
structure KPIDataPatch where
  metric : Option Str := none
  value : Option Int := none
  target : Option Int := none
  unit : Option Str := none
  category : Option Str := none
deriving DecidableEq, Repr

/-- In-memory state of the `DataManager` class: the three private fields. -/
structure DataManager where
  businessData : Option BusinessData := none
  financialRecords : List FinancialRecord := []
  kpiData : List KPIData := []
deriving DecidableEq, Repr

/-- Model of `localStorage` restricted to the three keys the store uses.
Each slot is `none` while the key has never been written, and otherwise
holds the (JSON round-tripped) value last written under that key. -/
structure Storage where
  businessKey : Option BusinessData := none
  financialKey : Option (List FinancialRecord) := none
  kpiKey : Option (List KPIData) := none
deriving DecidableEq, Repr

/-- Model of `DataManager.saveToStorage`: the financial-record and KPI keys
are always overwritten, but the business-data key is written only when a
profile currently exists (`if (this.businessData) localStorage.setItem(...)`),
so a previously stored profile stays in storage when the in-memory profile
is `null`. -/
def saveToStorage (dm : DataManager) (st : Storage) : Storage :=
  { businessKey :=
      match dm.businessData with
      | some bd => some bd
      | none => st.businessKey
    financialKey := some dm.financialRecords
    kpiKey := some dm.kpiData }

/-- Model of the object literal built by `setBusinessData`: merges the
caller's fields over defaults with JavaScript `||`, generating a fresh id
when `data.id` is falsy and stamping `createdAt`/`updatedAt` with `now`.
(`data.createdAt || now` tests a `Date` object, which is always truthy when
present, hence plain `Option.getD`.) -/
def mkBusinessData (data : BusinessDataPatch) (now : Nat) (freshId : Str) : BusinessData :=
  { id := jsOrStr data.id freshId
    companyName := jsOrStr data.companyName []
    industry := jsOrStr data.industry []
    employees := jsOrNum data.employees 0
    revenue := jsOrNum data.revenue 0
    costs := jsOrNum data.costs 0
    assets := jsOrNum data.assets 0
    liabilities := jsOrNum data.liabilities 0
    cashFlow := jsOrNum data.cashFlow 0
    createdAt := data.createdAt.getD now
    updatedAt := now }

/-- Model of `DataManager.setBusinessData` (in-memory effect). -/
def setBusinessData (dm : DataManager) (data : BusinessDataPatch) (now : Nat)
    (freshId : Str) : DataManager :=
  { dm with businessData := some (mkBusinessData data now freshId) }

/-- Model of `DataManager.getBusinessData`. -/
def getBusinessData (dm : DataManager) : Option BusinessData :=
  dm.businessData

/-- Insertion step of the sort in `addFinancialRecord`: place `x` before
the first element strictly greater by date. -/
def insertRec (x : FinancialRecord) : List FinancialRecord → List FinancialRecord
  | [] => [x]
  | y :: ys =>
    if strCmp y.date x.date = Ordering.gt then x :: y :: ys
    else y :: insertRec x ys

/-- Model of `this.financialRecords.sort((a, b) => new Date(a.date).getTime()
- new Date(b.date).getTime())` as an insertion sort under the date
comparator. -/
def sortRecs : List FinancialRecord → List FinancialRecord
  | [] => []
  | x :: xs => insertRec x (sortRecs xs)

/-- Model of `DataManager.addFinancialRecord`: defaults a falsy date to
`today` (`record.date || new Date().toISOString().split('T')[0]`), removes
every existing record with the same date, appends the new record and
re-sorts by date. -/
def addFinancialRecord (dm : DataManager) (record : FinancialRecordInput)
    (today : Str) : DataManager :=
  let newRecord : FinancialRecord :=
    { date := jsOrStr record.date today
      revenue := record.revenue
      expenses := record.expenses
      profit := record.profit
      cashFlow := record.cashFlow }
  { dm with financialRecords :=
      sortRecs (dm.financialRecords.filter (fun r => r.date ≠ newRecord.date) ++ [newRecord]) }

/-- Model of `DataManager.getFinancialRecords`. -/
def getFinancialRecords (dm : DataManager) : List FinancialRecord :=
  dm.financialRecords

/-- Model of the spread merge `{ ...this.financialRecords[index], ...updates }`. -/
def mergeRecord (r : FinancialRecord) (u : FinancialRecordPatch) : FinancialRecord :=
  { date := u.date.getD r.date
    revenue := u.revenue.getD r.revenue
    expenses := u.expenses.getD r.expenses
    profit := u.profit.getD r.profit
    cashFlow := u.cashFlow.getD r.cashFlow }

/-- Replacement of the first element satisfying `p` by its image under `f`,
modelling `findIndex` followed by assignment at that index. -/
def updateFirst {α : Type} (p : α → Bool) (f : α → α) : List α → List α
  | [] => []
  | x :: xs => if p x then f x :: xs else x :: updateFirst p f xs

/-- Model of `DataManager.updateFinancialRecord`: no-op when no record has
the given date, otherwise merges the patch into the first matching record
in place (no re-sort, no de-duplication). -/
def updateFinancialRecord (dm : DataManager) (date : Str)
    (updates : FinancialRecordPatch) : DataManager :=
  { dm with
    financialRecords :=
      updateFirst (fun r => r.date = date) (fun r => mergeRecord r updates) dm.financialRecords }

/-- Model of `DataManager.deleteFinancialRecord`. -/
def deleteFinancialRecord (dm : DataManager) (date : Str) : DataManager :=
  { dm with financialRecords := dm.financialRecords.filter (fun r => r.date ≠ date) }

/-- Model of `DataManager.setKPIData`: wholesale replacement, with no
de-duplication of metric names. -/
def setKPIData (dm : DataManager) (kpis : List KPIData) : DataManager :=
  { dm with kpiData := kpis }

/-- Model of `DataManager.getKPIData`. -/
def getKPIData (dm : DataManager) : List KPIData :=
  dm.kpiData

/-- Model of `DataManager.addKPI`: removes every existing KPI with the same
metric name, then appends the new one. -/
def addKPI (dm : DataManager) (kpi : KPIData) : DataManager :=
  { dm with kpiData := dm.kpiData.filter (fun k => k.metric ≠ kpi.metric) ++ [kpi] }

/-- Model of the spread merge `{ ...this.kpiData[index], ...updates }`. -/
def mergeKPI (k : KPIData) (u : KPIDataPatch) : KPIData :=
  { metric := u.metric.getD k.metric
    value := u.value.getD k.value
    target := u.target.getD k.target
    unit := u.unit.getD k.unit
    category := u.category.getD k.category }

/-- Model of `DataManager.updateKPI`. -/
def updateKPI (dm : DataManager) (metric : Str) (updates : KPIDataPatch) : DataManager :=
  { dm with
    kpiData :=
      updateFirst (fun k => k.metric = metric) (fun k => mergeKPI k updates) dm.kpiData }

/-- Model of `DataManager.deleteKPI`. -/
def deleteKPI (dm : DataManager) (metric : Str) : DataManager :=
  { dm with kpiData := dm.kpiData.filter (fun k => k.metric ≠ metric) }

/-- Model of `DataManager.clearAllData` including its `saveToStorage` call:
nulls the profile, empties both collections, and writes storage from that
cleared state. -/
def clearAllData (dm : DataManager) (st : Storage) : DataManager × Storage :=
  let dm' : DataManager := { businessData := none, financialRecords := [], kpiData := [] }
  (dm', saveToStorage dm' st)

/-- Result shape of `getFinancialMetrics`. -/
structure FinancialMetrics where
  revenue : Int
  costs : Int
  grossProfit : Int
  netProfit : Int
  assets : Int
  liabilities : Int
  equity : Int
  cashFlow : Int
  expenses : Int
deriving DecidableEq, Repr

/-- Model of `DataManager.getFinancialMetrics`: `null` without a profile,
otherwise the derived metrics of the current profile. -/
def getFinancialMetrics (dm : DataManager) : Option FinancialMetrics :=
  match dm.businessData with
  | none => none
  | some bd =>
    let grossProfit := bd.revenue - bd.costs
    let netProfit := grossProfit
    let equity := bd.assets - bd.liabilities
    some
      { revenue := bd.revenue
        costs := bd.costs
        grossProfit := grossProfit
        netProfit := netProfit
        assets := bd.assets
        liabilities := bd.liabilities
        equity := equity
        cashFlow := bd.cashFlow
        expenses := bd.costs }

/-!
Order and invariant machinery for the record and indicator collections.
-/

/-- Ascending-or-equal relation on date strings (`strCmp` not `gt`). -/
def strLeP (a b : Str) : Prop := strCmp a b ≠ Ordering.gt

/-- Records listed in ascending date order. -/
def sortedByDate (l : List FinancialRecord) : Prop :=
  l.Pairwise (fun a b => strLeP a.date b.date)

/-- Records listed in strictly ascending date order. -/
def strictSortedByDate (l : List FinancialRecord) : Prop :=
  l.Pairwise (fun a b => strCmp a.date b.date = Ordering.lt)

/-- At most one record per date value. -/
def uniqueDates (l : List FinancialRecord) : Prop :=
  l.Pairwise (fun a b => a.date ≠ b.date)

/-- At most one indicator per metric name. -/
def uniqueMetrics (l : List KPIData) : Prop :=
  l.Pairwise (fun a b => a.metric ≠ b.metric)

instance (a b : Str) : Decidable (strLeP a b) :=
  inferInstanceAs (Decidable (strCmp a b ≠ Ordering.gt))

instance (l : List FinancialRecord) : Decidable (sortedByDate l) :=
  inferInstanceAs (Decidable (l.Pairwise fun (a b : FinancialRecord) => strLeP a.date b.date))

instance (l : List FinancialRecord) : Decidable (strictSortedByDate l) :=
  inferInstanceAs
    (Decidable (l.Pairwise fun (a b : FinancialRecord) => strCmp a.date b.date = Ordering.lt))

instance (l : List FinancialRecord) : Decidable (uniqueDates l) :=
  inferInstanceAs (Decidable (l.Pairwise fun (a b : FinancialRecord) => a.date ≠ b.date))

instance (l : List KPIData) : Decidable (uniqueMetrics l) :=
  inferInstanceAs (Decidable (l.Pairwise fun (a b : KPIData) => a.metric ≠ b.metric))

theorem strLeP_trans {a b c : Str} (h1 : strLeP a b) (h2 : strLeP b c) : strLeP a c := by
  rcases eq_or_ne a b with rfl | hne1
  · exact h2
  rcases eq_or_ne b c with rfl | hne2
  · exact h1
  have l1 := strCmp_lt_of_ne_gt_of_ne h1 hne1
  have l2 := strCmp_lt_of_ne_gt_of_ne h2 hne2
  simp [strLeP, strCmp_lt_trans l1 l2]

theorem strLeP_of_gt {a b : Str} (h : strCmp a b = Ordering.gt) : strLeP b a := by
  have := (strCmp_gt_iff a b).mp h
  simp [strLeP, this]

theorem insertRec_perm (x : FinancialRecord) (l : List FinancialRecord) :
    (insertRec x l).Perm (x :: l) := by
  induction l with
  | nil => exact List.Perm.refl _
  | cons y ys ih =>
    unfold insertRec
    split
    · exact List.Perm.refl _
    · exact (ih.cons y).trans (List.Perm.swap x y ys)

theorem sortRecs_perm (l : List FinancialRecord) : (sortRecs l).Perm l := by
  induction l with
  | nil => exact List.Perm.refl _
  | cons x xs ih => exact (insertRec_perm x (sortRecs xs)).trans (ih.cons x)

theorem mem_insertRec {z x : FinancialRecord} {l : List FinancialRecord}
    (h : z ∈ insertRec x l) : z = x ∨ z ∈ l := by
  have := (insertRec_perm x l).mem_iff.mp h
  simpa using this

theorem insertRec_sorted (x : FinancialRecord) {l : List FinancialRecord}
    (h : sortedByDate l) : sortedByDate (insertRec x l) := by
  induction l with
  | nil => exact List.pairwise_singleton _ _
  | cons y ys ih =>
    rw [sortedByDate, List.pairwise_cons] at h
    unfold insertRec
    split
    · next hgt =>
      refine List.Pairwise.cons ?_ (List.Pairwise.cons h.1 h.2)
      intro z hz
      rcases List.mem_cons.mp hz with rfl | hz
      · exact strLeP_of_gt hgt
      · exact strLeP_trans (strLeP_of_gt hgt) (h.1 z hz)
    · next hng =>
      refine List.Pairwise.cons ?_ (ih h.2)
      intro z hz
      rcases mem_insertRec hz with rfl | hz
      · exact hng
      · exact h.1 z hz

theorem sortRecs_sorted (l : List FinancialRecord) : sortedByDate (sortRecs l) := by
  induction l with
  | nil => exact List.Pairwise.nil
  | cons x xs ih => exact insertRec_sorted x ih

theorem uniqueDates_perm {l l' : List FinancialRecord} (hp : l.Perm l')
    (h : uniqueDates l) : uniqueDates l' :=
  (hp.pairwise_iff (fun hxy => hxy.symm)).mp h

theorem sortedByDate_of_map_eq {l l' : List FinancialRecord}
    (h : l.map (fun r => r.date) = l'.map (fun r => r.date))
    (hp : sortedByDate l) : sortedByDate l' := by
  have h1 : (l.map (fun r => r.date)).Pairwise strLeP := List.pairwise_map.mpr hp
  rw [h] at h1
  exact List.pairwise_map.mp h1

theorem uniqueDates_of_map_eq {l l' : List FinancialRecord}
    (h : l.map (fun r => r.date) = l'.map (fun r => r.date))
    (hp : uniqueDates l) : uniqueDates l' := by
  have h1 : (l.map (fun r => r.date)).Pairwise (fun a b => a ≠ b) := List.pairwise_map.mpr hp
  rw [h] at h1
  exact List.pairwise_map.mp h1

theorem addFinancialRecord_uniqueDates (dm : DataManager) (input : FinancialRecordInput)
    (today : Str) (h : uniqueDates dm.financialRecords) :
    uniqueDates (addFinancialRecord dm input today).financialRecords := by
  simp only [addFinancialRecord]
  apply uniqueDates_perm (sortRecs_perm _).symm
  rw [uniqueDates, List.pairwise_append]
  refine ⟨List.Pairwise.filter _ h, List.pairwise_singleton _ _, ?_⟩
  intro a ha b hb
  rcases List.mem_singleton.mp hb with rfl
  have := (List.mem_filter.mp ha).2
  simpa using this

theorem addFinancialRecord_sorted (dm : DataManager) (input : FinancialRecordInput)
    (today : Str) : sortedByDate (addFinancialRecord dm input today).financialRecords := by
  simp only [addFinancialRecord]
  exact sortRecs_sorted _

theorem updateFirst_record_dates (p : FinancialRecord → Bool) (u : FinancialRecordPatch)
    (hu : u.date = none) (l : List FinancialRecord) :
    (updateFirst p (fun r => mergeRecord r u) l).map (fun r => r.date)
      = l.map (fun r => r.date) := by
  induction l with
  | nil => rfl
  | cons x xs ih =>
    unfold updateFirst
    split
    · simp [mergeRecord, hu]
    · simp [ih]

theorem filter_ne_date_length {l : List FinancialRecord} {d : Str} (hu : uniqueDates l)
    (hex : ∃ r ∈ l, r.date = d) :
    (l.filter (fun r => r.date ≠ d)).length + 1 = l.length := by
  induction l with
  | nil => simp at hex
  | cons x xs ih =>
    rw [uniqueDates, List.pairwise_cons] at hu
    by_cases hx : x.date = d
    · have hall : ∀ z ∈ xs, z.date ≠ d := by
        intro z hz
        rw [← hx]
        exact (hu.1 z hz).symm
      rw [List.filter_cons]
      simp only [hx]
      rw [if_neg (by simp)]
      rw [List.filter_eq_self.mpr (by intro a ha; simpa using hall a ha)]
      simp
    · rw [List.filter_cons, if_pos (by simpa using hx)]
      have hex' : ∃ r ∈ xs, r.date = d := by
        rcases hex with ⟨r, hr, hrd⟩
        rcases List.mem_cons.mp hr with rfl | hr
        · exact absurd hrd hx
        · exact ⟨r, hr, hrd⟩
      have := ih hu.2 hex'
      simp only [List.length_cons]
      omega

/-!
Sample states used by witnesses and counterexamples.  Mutated states are
built through the public operations, so each one is reachable.
-/

/-- Record input with date 2024-01-01. -/
def recIn1 : FinancialRecordInput :=
  { date := some ("2024-01-01".toList), revenue := 100, expenses := 60, profit := 40,
    cashFlow := 30 }

/-- Record input with date 2024-01-02. -/
def recIn2 : FinancialRecordInput :=
  { date := some ("2024-01-02".toList), revenue := 200, expenses := 90, profit := 110,
    cashFlow := 80 }

/-- Store holding two records, built through `addFinancialRecord`. -/
def dmTwoRecords : DataManager :=
  addFinancialRecord (addFinancialRecord {} recIn1 ("2024-06-01".toList)) recIn2
    ("2024-06-01".toList)

/-- C2: the claim asserts that EVERY mutating record operation, including
`updateFinancialRecord`, leaves at most one record per date.  It is false:
`updateFinancialRecord` merges a `Partial<FinancialRecord>` that may itself
contain a `date`, so updating the 2024-01-02 record of a two-record store
with `{ date: "2024-01-01" }` yields two records dated 2024-01-01. -/
theorem C2_counterexample :
    (updateFinancialRecord dmTwoRecords ("2024-01-02".toList)
        { date := some ("2024-01-01".toList) }).financialRecords.map (fun r => r.date)
      = ["2024-01-01".toList, "2024-01-01".toList] ∧
    ¬ uniqueDates (updateFinancialRecord dmTwoRecords ("2024-01-02".toList)
        { date := some ("2024-01-01".toList) }).financialRecords := by
  decide

/-- C2 (amended): `addFinancialRecord` preserves date-uniqueness and always
re-sorts ascending; `deleteFinancialRecord` preserves both invariants;
`updateFinancialRecord` preserves them provided the patch does not supply a
`date`; and inserting at an already-present date keeps the collection
length unchanged (replace, not append). -/
theorem C2_record_invariants (dm : DataManager) (input : FinancialRecordInput)
    (today d : Str) (u : FinancialRecordPatch) :
    (uniqueDates dm.financialRecords →
      uniqueDates (addFinancialRecord dm input today).financialRecords) ∧
    sortedByDate (addFinancialRecord dm input today).financialRecords ∧
    (uniqueDates dm.financialRecords →
      uniqueDates (deleteFinancialRecord dm d).financialRecords) ∧
    (sortedByDate dm.financialRecords →
      sortedByDate (deleteFinancialRecord dm d).financialRecords) ∧
    (u.date = none → uniqueDates dm.financialRecords →
      uniqueDates (updateFinancialRecord dm d u).financialRecords) ∧
    (u.date = none → sortedByDate dm.financialRecords →
      sortedByDate (updateFinancialRecord dm d u).financialRecords) ∧
    (uniqueDates dm.financialRecords →
      (∃ r ∈ dm.financialRecords, r.date = jsOrStr input.date today) →
      (addFinancialRecord dm input today).financialRecords.length
        = dm.financialRecords.length) := by
  refine ⟨addFinancialRecord_uniqueDates dm input today,
    addFinancialRecord_sorted dm input today, ?_, ?_, ?_, ?_, ?_⟩
  · intro h
    exact List.Pairwise.filter _ h
  · intro h
    exact List.Pairwise.filter _ h
  · intro hnone h
    exact uniqueDates_of_map_eq
      (updateFirst_record_dates (fun r => r.date = d) u hnone dm.financialRecords).symm h
  · intro hnone h
    exact sortedByDate_of_map_eq
      (updateFirst_record_dates (fun r => r.date = d) u hnone dm.financialRecords).symm h
  · intro h hex
    simp only [addFinancialRecord]
    rw [(sortRecs_perm _).length_eq, List.length_append]
    simpa using filter_ne_date_length h hex

/-- C2 witness: concrete two-record store exercising every conjunct. -/
theorem C2_record_invariants_witness :
    uniqueDates (addFinancialRecord dmTwoRecords recIn1 ("2024-06-01".toList)).financialRecords ∧
    sortedByDate (addFinancialRecord dmTwoRecords recIn1 ("2024-06-01".toList)).financialRecords ∧
    uniqueDates (deleteFinancialRecord dmTwoRecords ("2024-01-01".toList)).financialRecords ∧
    sortedByDate (deleteFinancialRecord dmTwoRecords ("2024-01-01".toList)).financialRecords ∧
    uniqueDates (updateFinancialRecord dmTwoRecords ("2024-01-01".toList)
      { revenue := some 7 }).financialRecords ∧
    sortedByDate (updateFinancialRecord dmTwoRecords ("2024-01-01".toList)
      { revenue := some 7 }).financialRecords ∧
    (addFinancialRecord dmTwoRecords recIn1 ("2024-06-01".toList)).financialRecords.length
      = dmTwoRecords.financialRecords.length := by
  obtain ⟨h1, h2, h3, h4, h5, h6, h7⟩ :=
    C2_record_invariants dmTwoRecords recIn1 ("2024-06-01".toList) ("2024-01-01".toList)
      { revenue := some 7 }
  exact ⟨h1 (by decide), h2, h3 (by decide), h4 (by decide), h5 rfl (by decide),
    h6 rfl (by decide), h7 (by decide) (by decide)⟩

/-- KPI with metric name "conversion". -/
def kpiA : KPIData :=
  { metric := "conversion".toList, value := 1, target := 2, unit := "%".toList,
    category := "financial".toList }

/-- Another KPI with the same metric name and different values. -/
def kpiB : KPIData :=
  { metric := "conversion".toList, value := 5, target := 6, unit := "%".toList,
    category := "growth".toList }

/-- C4: the claim asserts that EVERY mutating indicator operation, including
`setKPIData`, leaves at most one indicator per metric name.  It is false:
`setKPIData` stores the caller's list wholesale without de-duplication, so
setting a list with a repeated metric name yields two indicators under the
same name. -/
theorem C4_counterexample :
    (setKPIData {} [kpiA, kpiB]).kpiData.map (fun k => k.metric)
      = ["conversion".toList, "conversion".toList] ∧
    ¬ uniqueMetrics (setKPIData {} [kpiA, kpiB]).kpiData := by
  decide

/-- C4 (amended): `addKPI` and `deleteKPI` preserve metric-name uniqueness,
and after `addKPI` exactly one indicator carries the added metric name and
it is the newly added one (so repeated additions under one name leave one
indicator with the latest values); `setKPIData` replaces wholesale without
de-duplicating and `updateKPI` may rename, so those two can break the
invariant. -/
theorem C4_kpi_invariants (dm : DataManager) (k : KPIData) (m : Str) :
    (uniqueMetrics dm.kpiData → uniqueMetrics (addKPI dm k).kpiData) ∧
    (uniqueMetrics dm.kpiData → uniqueMetrics (deleteKPI dm m).kpiData) ∧
    (addKPI dm k).kpiData.filter (fun x => x.metric = k.metric) = [k] := by
  refine ⟨?_, ?_, ?_⟩
  · intro h
    simp only [addKPI]
    rw [uniqueMetrics, List.pairwise_append]
    refine ⟨List.Pairwise.filter _ h, List.pairwise_singleton _ _, ?_⟩
    intro a ha b hb
    rcases List.mem_singleton.mp hb with rfl
    have := (List.mem_filter.mp ha).2
    simpa using this
  · intro h
    exact List.Pairwise.filter _ h
  · simp only [addKPI, List.filter_append, List.filter_filter]
    rw [List.filter_eq_nil_iff.mpr (by intro a ha; simp)]
    simp

/-- C4 witness: concrete one-KPI store exercising every conjunct. -/
theorem C4_kpi_invariants_witness :
    uniqueMetrics (addKPI (addKPI {} kpiA) kpiB).kpiData ∧
    uniqueMetrics (deleteKPI (addKPI {} kpiA) ("conversion".toList)).kpiData ∧
    (addKPI (addKPI {} kpiA) kpiB).kpiData.filter (fun x => x.metric = kpiB.metric)
      = [kpiB] := by
  obtain ⟨h1, h2, h3⟩ := C4_kpi_invariants (addKPI {} kpiA) kpiB ("conversion".toList)
  exact ⟨h1 (by decide), h2 (by decide), h3⟩

/-- Store whose profile was set through `setBusinessData`. -/
def dmC1 : DataManager :=
  setBusinessData {} { companyName := some ("Acme".toList) } 1 ("p0".toList)

/-- C1: the claim asserts that `clearAllData` persists the cleared state
under all three durable keys.  It is false for the profile key:
`saveToStorage` writes `bizoptima_business_data` only when the in-memory
profile is non-null, so after clearing, durable storage still holds the
old profile. -/
theorem C1_counterexample :
    getBusinessData (clearAllData dmC1 (saveToStorage dmC1 {})).1 = none ∧
    (clearAllData dmC1 (saveToStorage dmC1 {})).2.businessKey ≠ none := by
  decide

/-- C1 (amended): after `clearAllData` the in-memory getters return
absent/empty/empty, and the record and KPI keys are persisted as empty,
but the profile key is not written and keeps its previous durable value. -/
theorem C1_clearAll (dm : DataManager) (st : Storage) :
    getBusinessData (clearAllData dm st).1 = none ∧
    getFinancialRecords (clearAllData dm st).1 = [] ∧
    getKPIData (clearAllData dm st).1 = [] ∧
    (clearAllData dm st).2.financialKey = some [] ∧
    (clearAllData dm st).2.kpiKey = some [] ∧
    (clearAllData dm st).2.businessKey = st.businessKey :=
  ⟨rfl, rfl, rfl, rfl, rfl, rfl⟩

/-- Store with an existing profile: id "a", createdAt 5. -/
def dmC3 : DataManager :=
  setBusinessData {} { id := some ("a".toList), createdAt := some 5 } 5 ("a".toList)

/-- C3: the claim asserts that when a profile exists and the caller omits
`id`/`createdAt`, the existing profile's `id`/`createdAt` are preserved.
It is false: `setBusinessData` never reads the existing profile; a falsy
`data.id` gets a freshly generated id and an absent `data.createdAt` gets
the current time, regardless of the stored profile. -/
theorem C3_counterexample :
    (getBusinessData dmC3).map (fun bd => bd.id) = some ("a".toList) ∧
    (getBusinessData dmC3).map (fun bd => bd.createdAt) = some 5 ∧
    (getBusinessData (setBusinessData dmC3 { companyName := some ("Acme".toList) } 10
        ("b".toList))).map (fun bd => bd.id) = some ("b".toList) ∧
    some ("b".toList) ≠ some ("a".toList) ∧
    (getBusinessData (setBusinessData dmC3 { companyName := some ("Acme".toList) } 10
        ("b".toList))).map (fun bd => bd.createdAt) = some 10 ∧
    (10 : Nat) ≠ 5 := by
  decide

/-- C3 (amended): `setBusinessData` takes `id` from the call's own input
when supplied and non-empty and otherwise generates a fresh one, takes
`createdAt` from the input when supplied and otherwise stamps it with the
current time — in both cases ignoring any existing profile — and always
refreshes `updatedAt`. -/
theorem C3_set_profile_identity (dm : DataManager) (data : BusinessDataPatch) (now : Nat)
    (freshId : Str) :
    (data.id = none → (mkBusinessData data now freshId).id = freshId) ∧
    (∀ s, data.id = some s → s ≠ [] → (mkBusinessData data now freshId).id = s) ∧
    (data.createdAt = none → (mkBusinessData data now freshId).createdAt = now) ∧
    (∀ t, data.createdAt = some t → (mkBusinessData data now freshId).createdAt = t) ∧
    (mkBusinessData data now freshId).updatedAt = now ∧
    getBusinessData (setBusinessData dm data now freshId)
      = some (mkBusinessData data now freshId) := by
  refine ⟨?_, ?_, ?_, ?_, rfl, rfl⟩
  · intro h
    simp [mkBusinessData, jsOrStr, h]
  · intro s hs hne
    simp [mkBusinessData, jsOrStr, hs, hne]
  · intro h
    simp [mkBusinessData, h]
  · intro t ht
    simp [mkBusinessData, ht]

/-- C3 witness: one call omitting `id`/`createdAt`, one call supplying them. -/
theorem C3_set_profile_identity_witness :
    (mkBusinessData { companyName := some ("Acme".toList) } 10 ("b".toList)).id
      = "b".toList ∧
    (mkBusinessData { companyName := some ("Acme".toList) } 10 ("b".toList)).createdAt
      = 10 ∧
    (mkBusinessData { id := some ("keep".toList), createdAt := some 5 } 10
      ("b".toList)).id = "keep".toList ∧
    (mkBusinessData { id := some ("keep".toList), createdAt := some 5 } 10
      ("b".toList)).createdAt = 5 ∧
    (mkBusinessData { companyName := some ("Acme".toList) } 10 ("b".toList)).updatedAt
      = 10 := by
  obtain ⟨h1, _, h3, _, h5, _⟩ :=
    C3_set_profile_identity {} { companyName := some ("Acme".toList) } 10 ("b".toList)
  obtain ⟨_, h2, _, h4, _, _⟩ :=
    C3_set_profile_identity {} { id := some ("keep".toList), createdAt := some 5 } 10
      ("b".toList)
  exact ⟨h1 rfl, h3 rfl, h2 _ rfl (by decide), h4 _ rfl, h5⟩

/-- Profile input of the Acme scenario: companyName "Acme", revenue 1000,
costs 600, assets 5000, liabilities 2000. -/
def acmePatch : BusinessDataPatch :=
  { companyName := some ("Acme".toList), revenue := some 1000, costs := some 600,
    assets := some 5000, liabilities := some 2000 }

/-- C5: `getFinancialMetrics` returns `none` without a profile; with a
profile it returns grossProfit = revenue - costs, netProfit = grossProfit
and equity = assets - liabilities; on the Acme scenario this gives
grossProfit 400, netProfit 400, equity 3000. -/
theorem C5_derived_metrics (dm : DataManager) :
    (getBusinessData dm = none → getFinancialMetrics dm = none) ∧
    (∀ bd, getBusinessData dm = some bd →
      getFinancialMetrics dm = some
        { revenue := bd.revenue, costs := bd.costs,
          grossProfit := bd.revenue - bd.costs, netProfit := bd.revenue - bd.costs,
          assets := bd.assets, liabilities := bd.liabilities,
          equity := bd.assets - bd.liabilities, cashFlow := bd.cashFlow,
          expenses := bd.costs }) ∧
    (∃ m, getFinancialMetrics (setBusinessData dm acmePatch 7 ("id1".toList)) = some m ∧
      m.grossProfit = 400 ∧ m.netProfit = 400 ∧ m.equity = 3000) := by
  refine ⟨?_, ?_, ?_⟩
  · intro h
    simp only [getFinancialMetrics, getBusinessData] at h ⊢
    rw [h]
  · intro bd h
    simp only [getBusinessData] at h
    simp only [getFinancialMetrics, h]
  · exact ⟨_, rfl, by decide, by decide, by decide⟩

/-- C5 witness: the empty store and the Acme store. -/
theorem C5_derived_metrics_witness :
    getFinancialMetrics ({} : DataManager) = none ∧
    getFinancialMetrics (setBusinessData {} acmePatch 7 ("id1".toList)) = some
      { revenue := 1000, costs := 600, grossProfit := 400, netProfit := 400,
        assets := 5000, liabilities := 2000, equity := 3000, cashFlow := 0,
        expenses := 600 } ∧
    (∃ m, getFinancialMetrics (setBusinessData {} acmePatch 7 ("id1".toList)) = some m ∧
      m.grossProfit = 400 ∧ m.netProfit = 400 ∧ m.equity = 3000) := by
  obtain ⟨h1, _, h3⟩ := C5_derived_metrics ({} : DataManager)
  obtain ⟨_, h2, _⟩ := C5_derived_metrics (setBusinessData {} acmePatch 7 ("id1".toList))
  refine ⟨h1 rfl, ?_, h3⟩
  have := h2 (mkBusinessData acmePatch 7 ("id1".toList)) rfl
  rw [this]
  decide

/-- C7: after `setBusinessData`, every numeric field the caller omitted
reads 0 and every text field the caller omitted reads the empty string
(and the profile returned by `getBusinessData` is exactly the merged
object). -/
theorem C7_profile_defaults (dm : DataManager) (data : BusinessDataPatch) (now : Nat)
    (freshId : Str) :
    getBusinessData (setBusinessData dm data now freshId)
      = some (mkBusinessData data now freshId) ∧
    (data.companyName = none → (mkBusinessData data now freshId).companyName = []) ∧
    (data.industry = none → (mkBusinessData data now freshId).industry = []) ∧
    (data.employees = none → (mkBusinessData data now freshId).employees = 0) ∧
    (data.revenue = none → (mkBusinessData data now freshId).revenue = 0) ∧
    (data.costs = none → (mkBusinessData data now freshId).costs = 0) ∧
    (data.assets = none → (mkBusinessData data now freshId).assets = 0) ∧
    (data.liabilities = none → (mkBusinessData data now freshId).liabilities = 0) ∧
    (data.cashFlow = none → (mkBusinessData data now freshId).cashFlow = 0) := by
  refine ⟨rfl, ?_, ?_, ?_, ?_, ?_, ?_, ?_, ?_⟩ <;>
    · intro h
      simp [mkBusinessData, jsOrStr, jsOrNum, h]

/-- C7 witness: the all-omitted input. -/
theorem C7_profile_defaults_witness :
    getBusinessData (setBusinessData {} {} 3 ("g".toList))
      = some (mkBusinessData {} 3 ("g".toList)) ∧
    (mkBusinessData {} 3 ("g".toList)).companyName = [] ∧
    (mkBusinessData {} 3 ("g".toList)).industry = [] ∧
    (mkBusinessData {} 3 ("g".toList)).employees = 0 ∧
    (mkBusinessData {} 3 ("g".toList)).revenue = 0 ∧
    (mkBusinessData {} 3 ("g".toList)).costs = 0 ∧
    (mkBusinessData {} 3 ("g".toList)).assets = 0 ∧
    (mkBusinessData {} 3 ("g".toList)).liabilities = 0 ∧
    (mkBusinessData {} 3 ("g".toList)).cashFlow = 0 := by
  obtain ⟨h0, h1, h2, h3, h4, h5, h6, h7, h8⟩ := C7_profile_defaults {} {} 3 ("g".toList)
  exact ⟨h0, h1 rfl, h2 rfl, h3 rfl, h4 rfl, h5 rfl, h6 rfl, h7 rfl, h8 rfl⟩

/-!
CSV adapter: `importFromCSV` (modelled on the already-read file text) and
`exportToCSV` (modelled as the produced file content, `none` when the
export aborts with the no-records warning).
-/

/-- JavaScript `String.prototype.split(sep)` for a one-character separator. -/
def splitOnChar (c : Char) : Str → List Str
  | [] => [[]]
  | a :: as =>
    if a = c then [] :: splitOnChar c as
    else
      match splitOnChar c as with
      | [] => [[a]]
      | r :: rs => (a :: r) :: rs

/-- JavaScript `String.prototype.trim` (restricted to the whitespace
characters that can occur in a text file). -/
def trim (s : Str) : Str :=
  ((s.dropWhile isSpChar).reverse.dropWhile isSpChar).reverse

/-- Header/value cleanup `h.trim().replace(/"/g, '')`. -/
def cleanField (s : Str) : Str :=
  (trim s).filter (fun c => c ≠ '"')

/-- Model of `text.split('\n').filter(line => line.trim())`. -/
def csvLines (text : Str) : List Str :=
  (splitOnChar '\n' text).filter (fun l => !(trim l).isEmpty)

/-- Model of the row object built by
`headers.forEach((header, index) => record[header] = values[index])`,
looked up at `key`.  A later assignment under a repeated header wins, and
headers beyond the end of `values` read as absent. -/
def rowLookup : List Str → List Str → Str → Option Str
  | h :: hs, v :: vs, key =>
    match rowLookup hs vs key with
    | some r => some r
    | none => if h = key then some v else none
  | _, _, _ => none

/-- JavaScript `a || b` where both operands are optionally-present strings. -/
def jsStrOr (a b : Option Str) : Option Str :=
  match a with
  | some s => if s = [] then b else some s
  | none => b

/-- Header row of the exported CSV and of the import lookups. -/
def csvHeaders : List Str :=
  ["Date".toList, "Revenue".toList, "Expenses".toList, "Profit".toList,
    "Cash Flow".toList]

/-- Model of the per-data-row logic of `importFromCSV`: rows with fewer
fields than headers are skipped, a row is a financial record only when it
has a non-empty value under `date` or `Date`, and numeric fields default
to 0. -/
def parseCSVLine (headers : List Str) (line : Str) : Option FinancialRecord :=
  let values := (splitOnChar ',' line).map cleanField
  if values.length < headers.length then none
  else
    match jsStrOr (rowLookup headers values ("date".toList))
        (rowLookup headers values ("Date".toList)) with
    | some d =>
      if d = [] then none
      else some
        { date := d
          revenue := numOr0 (jsStrOr (rowLookup headers values ("revenue".toList))
            (rowLookup headers values ("Revenue".toList)))
          expenses := numOr0 (jsStrOr (rowLookup headers values ("expenses".toList))
            (rowLookup headers values ("Expenses".toList)))
          profit := numOr0 (jsStrOr (rowLookup headers values ("profit".toList))
            (rowLookup headers values ("Profit".toList)))
          cashFlow := numOr0 (jsStrOr (rowLookup headers values ("cashFlow".toList))
            (rowLookup headers values ("Cash Flow".toList))) }
    | none => none

/-- Result record `{ success, message }` of the import adapters. -/
structure ImportResult where
  success : Bool
  message : Str
deriving DecidableEq, Repr

/-- View of a complete record as an `addFinancialRecord` argument, as in
`records.forEach(record => this.addFinancialRecord(record))`. -/
def recordToInput (r : FinancialRecord) : FinancialRecordInput :=
  { date := some r.date, revenue := r.revenue, expenses := r.expenses,
    profit := r.profit, cashFlow := r.cashFlow }

/-- Model of `DataManager.importFromCSV` applied to the already-read file
text: fewer than two non-blank lines fail without touching the store;
otherwise every parsed row is applied through `addFinancialRecord`. -/
def importFromCSV (dm : DataManager) (text : Str) (today : Str) :
    DataManager × ImportResult :=
  match csvLines text with
  | l0 :: l1 :: rest =>
    let headers := (splitOnChar ',' l0).map cleanField
    let records := (l1 :: rest).filterMap (parseCSVLine headers)
    let dm' := records.foldl (fun s r => addFinancialRecord s (recordToInput r) today) dm
    (dm',
      { success := true
        message := ("Successfully imported ".toList) ++ natToDigits records.length
          ++ (" financial records".toList) })
  | _ =>
    (dm,
      { success := false
        message := "CSV file must have at least a header and one data row".toList })

/-- Header line of the exported CSV. -/
def csvHeaderLine : Str := "Date,Revenue,Expenses,Profit,Cash Flow".toList

/-- One exported CSV data line:
`` `${record.date},${record.revenue},${record.expenses},${record.profit},${record.cashFlow}` ``. -/
def recordLine (r : FinancialRecord) : Str :=
  r.date ++ (',' :: (intStr r.revenue ++ (',' :: (intStr r.expenses
    ++ (',' :: (intStr r.profit ++ (',' :: intStr r.cashFlow)))))))

/-- JavaScript `Array.prototype.join('\n')`. -/
def joinLines : List Str → Str
  | [] => []
  | [l] => l
  | l :: ls => l ++ '\n' :: joinLines ls

/-- Model of `DataManager.exportToCSV`: `none` models the early return
behind the "No financial records to export" alert, `some csv` the content
of the produced file. -/
def exportToCSVContent (dm : DataManager) : Option Str :=
  if dm.financialRecords.isEmpty then none
  else some (joinLines (csvHeaderLine :: dm.financialRecords.map recordLine))

/-- C9: CSV import discards blank lines and, with fewer than two remaining
lines, fails with the descriptive message and leaves the store unchanged;
with at least two lines it proceeds and (absent exceptions, which the
model has none of) reports success. -/
theorem C9_csv_min_lines (dm : DataManager) (text today : Str) :
    ((csvLines text).length < 2 →
      (importFromCSV dm text today).1 = dm ∧
      (importFromCSV dm text today).2.success = false ∧
      (importFromCSV dm text today).2.message
        = "CSV file must have at least a header and one data row".toList) ∧
    (2 ≤ (csvLines text).length →
      (importFromCSV dm text today).2.success = true) := by
  constructor
  · intro h
    cases hl : csvLines text with
    | nil => simp [importFromCSV, hl]
    | cons l0 ls =>
      cases ls with
      | nil => simp [importFromCSV, hl]
      | cons l1 rest =>
        rw [hl] at h
        simp at h
        omega
  · intro h
    cases hl : csvLines text with
    | nil =>
      rw [hl] at h
      simp at h
    | cons l0 ls =>
      cases ls with
      | nil =>
        rw [hl] at h
        simp at h
      | cons l1 rest =>
        simp [importFromCSV, hl]

/-- C9 witness: a header-only file fails and leaves the store unchanged;
a header plus one data row succeeds. -/
theorem C9_csv_min_lines_witness :
    (importFromCSV {} ("Date,Revenue,Expenses,Profit,Cash Flow".toList)
      ("2024-06-01".toList)).1 = {} ∧
    (importFromCSV {} ("Date,Revenue,Expenses,Profit,Cash Flow".toList)
      ("2024-06-01".toList)).2.success = false ∧
    (importFromCSV {} ("Date,Revenue,Expenses,Profit,Cash Flow".toList)
      ("2024-06-01".toList)).2.message
      = "CSV file must have at least a header and one data row".toList ∧
    (importFromCSV {}
      ("Date,Revenue,Expenses,Profit,Cash Flow\n2024-01-01,100,60,40,30".toList)
      ("2024-06-01".toList)).2.success = true := by
  obtain ⟨hfail, _⟩ :=
    C9_csv_min_lines {} ("Date,Revenue,Expenses,Profit,Cash Flow".toList)
      ("2024-06-01".toList)
  obtain ⟨_, hsucc⟩ :=
    C9_csv_min_lines {}
      ("Date,Revenue,Expenses,Profit,Cash Flow\n2024-01-01,100,60,40,30".toList)
      ("2024-06-01".toList)
  obtain ⟨h1, h2, h3⟩ := hfail (by decide)
  exact ⟨h1, h2, h3, hsucc (by decide)⟩

theorem splitOnChar_not_mem {c : Char} {l : Str} (h : c ∉ l) : splitOnChar c l = [l] := by
  induction l with
  | nil => rfl
  | cons a as ih =>
    simp only [List.mem_cons, not_or] at h
    unfold splitOnChar
    rw [if_neg (fun hh => h.1 hh.symm), ih h.2]

theorem splitOnChar_append_cons (c : Char) (l1 l2 : Str) (h : c ∉ l1) :
    splitOnChar c (l1 ++ c :: l2) = l1 :: splitOnChar c l2 := by
  induction l1 with
  | nil =>
    simp only [List.nil_append]
    rw [splitOnChar, if_pos rfl]
  | cons a as ih =>
    simp only [List.mem_cons, not_or] at h
    simp only [List.cons_append]
    rw [splitOnChar, if_neg (fun hh => h.1 hh.symm), ih h.2]

theorem splitOnChar_joinLines {ls : List Str} (h : ∀ l ∈ ls, '\n' ∉ l) (hne : ls ≠ []) :
    splitOnChar '\n' (joinLines ls) = ls := by
  induction ls with
  | nil => exact absurd rfl hne
  | cons l rest ih =>
    cases rest with
    | nil =>
      show splitOnChar '\n' (joinLines [l]) = [l]
      exact splitOnChar_not_mem (h l (List.mem_cons_self l []))
    | cons l2 rest2 =>
      show splitOnChar '\n' (l ++ '\n' :: joinLines (l2 :: rest2)) = _
      rw [splitOnChar_append_cons _ _ _ (h l (List.mem_cons_self _ _))]
      rw [ih (fun x hx => h x (List.mem_cons_of_mem _ hx)) (by simp)]

theorem dropWhile_sp_eq_self {l : Str} (h : ∀ c ∈ l, isSpChar c = false) :
    l.dropWhile isSpChar = l := by
  cases l with
  | nil => rfl
  | cons a as =>
    rw [List.dropWhile_cons, if_neg (by simp [h a (List.mem_cons_self a as)])]

theorem trim_eq_self {l : Str} (h : ∀ c ∈ l, isSpChar c = false) : trim l = l := by
  unfold trim
  rw [dropWhile_sp_eq_self h,
    dropWhile_sp_eq_self (fun c hc => h c (List.mem_reverse.mp hc)), List.reverse_reverse]

theorem plainChar_spec {c : Char} (h : plainChar c = true) :
    isSpChar c = false ∧ c ≠ ',' ∧ c ≠ '"' ∧ c ≠ '\n' := by
  simp only [plainChar, Bool.and_eq_true, Bool.not_eq_true', bne_iff_ne] at h
  refine ⟨h.1.1, h.1.2, h.2, ?_⟩
  intro hc
  rw [hc] at h
  simp [isSpChar] at h

theorem cleanField_plain {l : Str} (h : ∀ c ∈ l, plainChar c = true) : cleanField l = l := by
  unfold cleanField
  rw [trim_eq_self (fun c hc => (plainChar_spec (h c hc)).1)]
  exact List.filter_eq_self.mpr (by intro a ha; simpa using (plainChar_spec (h a ha)).2.2.1)

theorem recordLine_mem {r : FinancialRecord} (hp : ∀ c ∈ r.date, plainChar c = true) :
    ∀ c ∈ recordLine r, plainChar c = true ∨ c = ',' := by
  intro c hc
  unfold recordLine at hc
  simp only [List.mem_append, List.mem_cons] at hc
  rcases hc with h | hc
  · exact Or.inl (hp c h)
  rcases hc with rfl | hc
  · exact Or.inr rfl
  rcases hc with h | hc
  · exact Or.inl (intStr_plain _ c h)
  rcases hc with rfl | hc
  · exact Or.inr rfl
  rcases hc with h | hc
  · exact Or.inl (intStr_plain _ c h)
  rcases hc with rfl | hc
  · exact Or.inr rfl
  rcases hc with h | hc
  · exact Or.inl (intStr_plain _ c h)
  rcases hc with rfl | h
  · exact Or.inr rfl
  · exact Or.inl (intStr_plain _ c h)

theorem recordLine_no_sp {r : FinancialRecord} (hp : ∀ c ∈ r.date, plainChar c = true) :
    ∀ c ∈ recordLine r, isSpChar c = false := by
  intro c hc
  rcases recordLine_mem hp c hc with h | rfl
  · exact (plainChar_spec h).1
  · rfl

theorem recordLine_no_newline {r : FinancialRecord} (hp : ∀ c ∈ r.date, plainChar c = true) :
    '\n' ∉ recordLine r := by
  intro hc
  have := recordLine_no_sp hp '\n' hc
  simp [isSpChar] at this

theorem recordLine_ne_nil (r : FinancialRecord) : recordLine r ≠ [] := by
  unfold recordLine
  cases hd : r.date with
  | nil => simp
  | cons a as => simp

theorem not_comma_mem_of_plain {l : Str} (h : ∀ c ∈ l, plainChar c = true) : ',' ∉ l := by
  intro hc
  have := (plainChar_spec (h ',' hc)).2.1
  exact this rfl

theorem not_comma_mem_intStr (n : Int) : ',' ∉ intStr n :=
  not_comma_mem_of_plain (intStr_plain n)

theorem recordLine_split {r : FinancialRecord} (hp : ∀ c ∈ r.date, plainChar c = true) :
    splitOnChar ',' (recordLine r)
      = [r.date, intStr r.revenue, intStr r.expenses, intStr r.profit,
          intStr r.cashFlow] := by
  unfold recordLine
  rw [splitOnChar_append_cons _ _ _ (not_comma_mem_of_plain hp)]
  rw [splitOnChar_append_cons _ _ _ (not_comma_mem_intStr r.revenue)]
  rw [splitOnChar_append_cons _ _ _ (not_comma_mem_intStr r.expenses)]
  rw [splitOnChar_append_cons _ _ _ (not_comma_mem_intStr r.profit)]
  rw [splitOnChar_not_mem (not_comma_mem_intStr r.cashFlow)]

theorem parseCSVLine_recordLine {r : FinancialRecord}
    (hp : ∀ c ∈ r.date, plainChar c = true) (hne : r.date ≠ []) :
    parseCSVLine csvHeaders (recordLine r) = some r := by
  have hmap : (splitOnChar ',' (recordLine r)).map cleanField
      = [r.date, intStr r.revenue, intStr r.expenses, intStr r.profit,
          intStr r.cashFlow] := by
    rw [recordLine_split hp]
    simp only [List.map_cons, List.map_nil]
    rw [cleanField_plain hp, cleanField_plain (intStr_plain _),
      cleanField_plain (intStr_plain _), cleanField_plain (intStr_plain _),
      cleanField_plain (intStr_plain _)]
  have hdl : rowLookup csvHeaders [r.date, intStr r.revenue, intStr r.expenses,
      intStr r.profit, intStr r.cashFlow] ("date".toList) = none := by
    simp +decide [rowLookup, csvHeaders]
  have hDl : rowLookup csvHeaders [r.date, intStr r.revenue, intStr r.expenses,
      intStr r.profit, intStr r.cashFlow] ("Date".toList) = some r.date := by
    simp +decide [rowLookup, csvHeaders]
  have hrl : rowLookup csvHeaders [r.date, intStr r.revenue, intStr r.expenses,
      intStr r.profit, intStr r.cashFlow] ("revenue".toList) = none := by
    simp +decide [rowLookup, csvHeaders]
  have hRl : rowLookup csvHeaders [r.date, intStr r.revenue, intStr r.expenses,
      intStr r.profit, intStr r.cashFlow] ("Revenue".toList) = some (intStr r.revenue) := by
    simp +decide [rowLookup, csvHeaders]
  have hel : rowLookup csvHeaders [r.date, intStr r.revenue, intStr r.expenses,
      intStr r.profit, intStr r.cashFlow] ("expenses".toList) = none := by
    simp +decide [rowLookup, csvHeaders]
  have hEl : rowLookup csvHeaders [r.date, intStr r.revenue, intStr r.expenses,
      intStr r.profit, intStr r.cashFlow] ("Expenses".toList) = some (intStr r.expenses) := by
    simp +decide [rowLookup, csvHeaders]
  have hpl : rowLookup csvHeaders [r.date, intStr r.revenue, intStr r.expenses,
      intStr r.profit, intStr r.cashFlow] ("profit".toList) = none := by
    simp +decide [rowLookup, csvHeaders]
  have hPl : rowLookup csvHeaders [r.date, intStr r.revenue, intStr r.expenses,
      intStr r.profit, intStr r.cashFlow] ("Profit".toList) = some (intStr r.profit) := by
    simp +decide [rowLookup, csvHeaders]
  have hcl : rowLookup csvHeaders [r.date, intStr r.revenue, intStr r.expenses,
      intStr r.profit, intStr r.cashFlow] ("cashFlow".toList) = none := by
    simp +decide [rowLookup, csvHeaders]
  have hCl : rowLookup csvHeaders [r.date, intStr r.revenue, intStr r.expenses,
      intStr r.profit, intStr r.cashFlow] ("Cash Flow".toList) = some (intStr r.cashFlow) := by
    simp +decide [rowLookup, csvHeaders]
  unfold parseCSVLine
  rw [hmap, if_neg (by simp [csvHeaders]), hdl, hDl, hrl, hRl, hel, hEl, hpl, hPl, hcl, hCl]
  simp only [jsStrOr]
  rw [if_neg hne]
  simp only [numOr0, jsNumber_intStr, Option.getD_some]

theorem parse_export_lines {records : List FinancialRecord}
    (h : ∀ r ∈ records, (∀ c ∈ r.date, plainChar c = true) ∧ r.date ≠ []) :
    (records.map recordLine).filterMap (parseCSVLine csvHeaders) = records := by
  induction records with
  | nil => rfl
  | cons r rs ih =>
    simp only [List.map_cons, List.filterMap_cons]
    rw [parseCSVLine_recordLine (h r (List.mem_cons_self r rs)).1
      (h r (List.mem_cons_self r rs)).2]
    rw [ih (fun x hx => h x (List.mem_cons_of_mem _ hx))]

theorem csvLines_export {records : List FinancialRecord} (hplain : ∀ r ∈ records,
    ∀ c ∈ r.date, plainChar c = true) :
    csvLines (joinLines (csvHeaderLine :: records.map recordLine))
      = csvHeaderLine :: records.map recordLine := by
  have hnl : ∀ l ∈ csvHeaderLine :: records.map recordLine, '\n' ∉ l := by
    intro l hl
    rcases List.mem_cons.mp hl with rfl | hl
    · decide
    · obtain ⟨r, hr, rfl⟩ := List.mem_map.mp hl
      exact recordLine_no_newline (hplain r hr)
  unfold csvLines
  rw [splitOnChar_joinLines hnl (by simp)]
  apply List.filter_eq_self.mpr
  intro l hl
  rcases List.mem_cons.mp hl with rfl | hl
  · decide
  · obtain ⟨r, hr, rfl⟩ := List.mem_map.mp hl
    rw [trim_eq_self (recordLine_no_sp (hplain r hr))]
    simp [recordLine_ne_nil r]

theorem strict_of_sorted_unique {l : List FinancialRecord} (hs : sortedByDate l)
    (hu : uniqueDates l) : strictSortedByDate l := by
  unfold sortedByDate at hs
  unfold uniqueDates at hu
  unfold strictSortedByDate
  exact (hs.and hu).imp (fun h => strCmp_lt_of_ne_gt_of_ne h.1 h.2)

theorem uniqueDates_of_strict {l : List FinancialRecord} (h : strictSortedByDate l) :
    uniqueDates l := by
  unfold strictSortedByDate at h
  unfold uniqueDates
  refine h.imp (fun hlt heq => ?_)
  rw [heq] at hlt
  rw [(strCmp_eq_iff _ _).mpr rfl] at hlt
  exact absurd hlt (by decide)

theorem filter_date_singleton {l : List FinancialRecord} {r : FinancialRecord}
    (hu : uniqueDates l) (hr : r ∈ l) :
    l.filter (fun x => x.date = r.date) = [r] := by
  induction l with
  | nil => simp at hr
  | cons x xs ih =>
    rw [uniqueDates, List.pairwise_cons] at hu
    by_cases hx : x.date = r.date
    · have hrx : r = x := by
        rcases List.mem_cons.mp hr with rfl | hmem
        · rfl
        · exact absurd hx (hu.1 r hmem)
      subst hrx
      rw [List.filter_cons, if_pos (by simp)]
      rw [List.filter_eq_nil_iff.mpr
        (by intro a ha; simpa using fun heq => (hu.1 a ha) heq.symm)]
    · rw [List.filter_cons, if_neg (by simpa using hx)]
      have hrmem : r ∈ xs := by
        rcases List.mem_cons.mp hr with rfl | hmem
        · exact absurd rfl hx
        · exact hmem
      exact ih hu.2 hrmem

theorem sortRecs_eq_of_perm_strict {l m : List FinancialRecord} (hperm : l.Perm m)
    (hm : strictSortedByDate m) : sortRecs l = m := by
  have hperm2 : (sortRecs l).Perm m := (sortRecs_perm l).trans hperm
  have huniq : uniqueDates (sortRecs l) :=
    uniqueDates_perm hperm2.symm (uniqueDates_of_strict hm)
  have hstrict : strictSortedByDate (sortRecs l) :=
    strict_of_sorted_unique (sortRecs_sorted l) huniq
  haveI : IsAntisymm FinancialRecord (fun a b => strCmp a.date b.date = Ordering.lt) :=
    ⟨fun a b h1 h2 => by
      have := (strCmp_gt_iff b.date a.date).mpr h1
      rw [h2] at this
      exact absurd this (by decide)⟩
  exact List.eq_of_perm_of_sorted hperm2 hstrict hm

theorem sortRecs_filter_self {l : List FinancialRecord} {r : FinancialRecord}
    (hu : uniqueDates l) (hs : strictSortedByDate l) (hr : r ∈ l) :
    sortRecs (l.filter (fun x => x.date ≠ r.date) ++ [r]) = l := by
  apply sortRecs_eq_of_perm_strict _ hs
  have h1 : l.filter (fun x => !(decide (x.date ≠ r.date))) = [r] := by
    have hfun : (fun (x : FinancialRecord) => !(decide (x.date ≠ r.date)))
        = (fun x => decide (x.date = r.date)) := by
      funext x
      by_cases h : x.date = r.date <;> simp [h]
    rw [hfun]
    exact filter_date_singleton hu hr
  have h2 : (l.filter (fun x => decide (x.date ≠ r.date))
      ++ l.filter (fun x => !(decide (x.date ≠ r.date)))).Perm l :=
    List.filter_append_perm _ l
  rw [h1] at h2
  exact h2

theorem addFinancialRecord_mem_self {dm : DataManager} {r : FinancialRecord} (today : Str)
    (hu : uniqueDates dm.financialRecords) (hs : strictSortedByDate dm.financialRecords)
    (hr : r ∈ dm.financialRecords) (hne : r.date ≠ []) :
    addFinancialRecord dm (recordToInput r) today = dm := by
  have hdate : jsOrStr (some r.date) today = r.date := by
    simp [jsOrStr, hne]
  show { dm with financialRecords := sortRecs (dm.financialRecords.filter
      (fun x => x.date ≠ jsOrStr (some r.date) today)
      ++ [{ date := jsOrStr (some r.date) today, revenue := r.revenue,
            expenses := r.expenses, profit := r.profit, cashFlow := r.cashFlow }]) } = dm
  rw [hdate]
  show { dm with financialRecords := sortRecs (dm.financialRecords.filter
      (fun x => x.date ≠ r.date) ++ [r]) } = dm
  rw [sortRecs_filter_self hu hs hr]

theorem foldl_add_self {dm : DataManager} (today : Str)
    (hu : uniqueDates dm.financialRecords) (hs : strictSortedByDate dm.financialRecords)
    {rs : List FinancialRecord}
    (hsub : ∀ r ∈ rs, r ∈ dm.financialRecords ∧ r.date ≠ []) :
    rs.foldl (fun s r => addFinancialRecord s (recordToInput r) today) dm = dm := by
  induction rs with
  | nil => rfl
  | cons r rest ih =>
    rw [List.foldl_cons,
      addFinancialRecord_mem_self today hu hs (hsub r (List.mem_cons_self r rest)).1
        (hsub r (List.mem_cons_self r rest)).2]
    exact ih (fun x hx => hsub x (List.mem_cons_of_mem _ hx))

/-- C6 (amended): for a store whose records have pairwise-distinct dates,
are in ascending date order, and whose date strings are non-empty and free
of commas, quotes, newlines and surrounding whitespace (the shape every
date produced by normal use has), exporting to CSV and re-importing that
text through `importFromCSV` succeeds and reproduces exactly the same
record collection.  Dates containing CSV metacharacters break the round
trip (see the counterexample). -/
theorem C6_csv_roundtrip (dm : DataManager) (today : Str)
    (hne : dm.financialRecords ≠ [])
    (hu : uniqueDates dm.financialRecords)
    (hs : sortedByDate dm.financialRecords)
    (hplain : ∀ r ∈ dm.financialRecords, r.date ≠ [] ∧ ∀ c ∈ r.date, plainChar c = true) :
    ∃ csv, exportToCSVContent dm = some csv ∧
      (importFromCSV dm csv today).1 = dm ∧
      (importFromCSV dm csv today).2.success = true := by
  have hexp : exportToCSVContent dm
      = some (joinLines (csvHeaderLine :: dm.financialRecords.map recordLine)) := by
    unfold exportToCSVContent
    rw [if_neg (by simpa using hne)]
  have hcsvlines : csvLines (joinLines (csvHeaderLine :: dm.financialRecords.map recordLine))
      = csvHeaderLine :: dm.financialRecords.map recordLine :=
    csvLines_export (fun r hr => (hplain r hr).2)
  obtain ⟨a, b, hab⟩ : ∃ a b, dm.financialRecords.map recordLine = a :: b := by
    cases hrec : dm.financialRecords with
    | nil => exact absurd hrec hne
    | cons r0 rr => exact ⟨recordLine r0, rr.map recordLine, by simp [hrec]⟩
  have hheaders : (splitOnChar ',' csvHeaderLine).map cleanField = csvHeaders := by decide
  have hrecords : (a :: b).filterMap (parseCSVLine csvHeaders) = dm.financialRecords := by
    rw [← hab]
    exact parse_export_lines (fun r hr => ⟨(hplain r hr).2, (hplain r hr).1⟩)
  have hfold : dm.financialRecords.foldl
      (fun s r => addFinancialRecord s (recordToInput r) today) dm = dm :=
    foldl_add_self today hu (strict_of_sorted_unique hs hu)
      (fun r hr => ⟨hr, (hplain r hr).1⟩)
  have himp : importFromCSV dm
      (joinLines (csvHeaderLine :: dm.financialRecords.map recordLine)) today
      = (dm, { success := true
               message := ("Successfully imported ".toList)
                 ++ natToDigits dm.financialRecords.length
                 ++ (" financial records".toList) }) := by
    unfold importFromCSV
    rw [hcsvlines, hab]
    simp only [hheaders, hrecords, hfold]
  exact ⟨_, hexp, by rw [himp], by rw [himp]⟩

/-- Store holding one record whose date contains a comma, built through
`addFinancialRecord` (whose argument type accepts any date string). -/
def dmCommaDate : DataManager :=
  addFinancialRecord {}
    { date := some ("a,b".toList), revenue := 100, expenses := 60, profit := 40,
      cashFlow := 30 }
    ("2024-06-01".toList)

/-- C6 is false as stated for EVERY record collection: a record whose date
contains a comma exports to the line `a,b,100,60,40,30`, which the
comma-splitting importer reads back as a record dated `a` with shifted
numeric fields, so the re-imported collection differs from the original. -/
theorem C6_counterexample :
    exportToCSVContent dmCommaDate
      = some ("Date,Revenue,Expenses,Profit,Cash Flow\na,b,100,60,40,30".toList) ∧
    (importFromCSV dmCommaDate
        ("Date,Revenue,Expenses,Profit,Cash Flow\na,b,100,60,40,30".toList)
        ("2024-06-01".toList)).1.financialRecords.map (fun r => r.date)
      = ["a".toList, "a,b".toList] ∧
    (importFromCSV dmCommaDate
        ("Date,Revenue,Expenses,Profit,Cash Flow\na,b,100,60,40,30".toList)
        ("2024-06-01".toList)).1.financialRecords ≠ dmCommaDate.financialRecords := by
  decide

/-- C6 witness: the round trip on a concrete well-formed two-record store. -/
theorem C6_csv_roundtrip_witness :
    ∃ csv, exportToCSVContent dmTwoRecords = some csv ∧
      (importFromCSV dmTwoRecords csv ("2024-06-01".toList)).1 = dmTwoRecords ∧
      (importFromCSV dmTwoRecords csv ("2024-06-01".toList)).2.success = true :=
  C6_csv_roundtrip dmTwoRecords ("2024-06-01".toList) (by decide) (by decide) (by decide)
    (by decide)

/-!
Spreadsheet (Excel) import adapter.  A parsed workbook is modelled as the
association of sheet names to row lists, a row as the key-cell association
produced by `XLSX.utils.sheet_to_json`, and a cell as either a string or a
number.  File reading and workbook parsing (which can throw, producing the
`Import failed: ...` result) are outside the model; the model covers the
exception-free path.
-/

/-- Value of one spreadsheet cell. -/
inductive CellVal where
  | str (s : Str)
  | num (n : Int)
deriving DecidableEq, Repr

/-- JavaScript truthiness of a cell value. -/
def CellVal.truthy : CellVal → Bool
  | .str s => !s.isEmpty
  | .num n => n != 0

/-- String reading of a cell value assigned into a text field (a numeric
cell is read through its decimal form). -/
def cellToStr : CellVal → Str
  | .str s => s
  | .num n => intStr n

/-- JavaScript `a || b` on optionally-present cell values. -/
def jsOrCell (a b : Option CellVal) : Option CellVal :=
  match a with
  | some v => if v.truthy then some v else b
  | none => b

/-- JavaScript truthiness of an optionally-present cell value. -/
def cellTruthy : Option CellVal → Bool
  | some v => v.truthy
  | none => false

/-- JavaScript `Number(x) || 0` on an optionally-present cell value. -/
def cellNumOr0 : Option CellVal → Int
  | none => 0
  | some (.num n) => n
  | some (.str s) => (jsNumber s).getD 0

/-- JavaScript `x || d` read into a text field: the cell's string when the
cell is truthy, the default otherwise. -/
def cellStrOr (a : Option CellVal) (d : Str) : Str :=
  match a with
  | some v => if v.truthy then cellToStr v else d
  | none => d

/-- One row of a parsed sheet: cells keyed by column header. -/
structure ExcelRow where
  cells : List (Str × CellVal)
deriving DecidableEq, Repr

/-- Cell lookup by header name. -/
def ExcelRow.get (row : ExcelRow) (key : Str) : Option CellVal :=
  (row.cells.find? (fun p => p.1 = key)).map (fun p => p.2)

/-- A parsed workbook: sheets keyed by name. -/
structure Workbook where
  sheets : List (Str × List ExcelRow)
deriving DecidableEq, Repr

/-- Sheet lookup by name. -/
def Workbook.sheet (wb : Workbook) (name : Str) : Option (List ExcelRow) :=
  (wb.sheets.find? (fun p => p.1 = name)).map (fun p => p.2)

/-- Model of `workbook.Sheets[n1] || workbook.Sheets[n2]` (sheet objects
are always truthy when present). -/
def sheetOr (wb : Workbook) (n1 n2 : Str) : Option (List ExcelRow) :=
  match wb.sheet n1 with
  | some rows => some rows
  | none => wb.sheet n2

/-- Model of the profile patch built from the first business-sheet row. -/
def excelBusinessPatch (row : ExcelRow) : BusinessDataPatch :=
  { companyName := (jsOrCell (row.get ("Company Name".toList))
      (row.get ("companyName".toList))).map cellToStr
    industry := (jsOrCell (row.get ("Industry".toList))
      (row.get ("industry".toList))).map cellToStr
    employees := some (cellNumOr0 (jsOrCell (row.get ("Employees".toList))
      (row.get ("employees".toList))))
    revenue := some (cellNumOr0 (jsOrCell (row.get ("Revenue".toList))
      (row.get ("revenue".toList))))
    costs := some (cellNumOr0 (jsOrCell (row.get ("Costs".toList))
      (row.get ("costs".toList))))
    assets := some (cellNumOr0 (jsOrCell (row.get ("Assets".toList))
      (row.get ("assets".toList))))
    liabilities := some (cellNumOr0 (jsOrCell (row.get ("Liabilities".toList))
      (row.get ("liabilities".toList))))
    cashFlow := some (cellNumOr0 (jsOrCell (row.get ("Cash Flow".toList))
      (row.get ("cashFlow".toList)))) }

/-- Model of the record-sheet row guard `if (record.Date || record.date)`. -/
def rowHasDate (row : ExcelRow) : Bool :=
  cellTruthy (jsOrCell (row.get ("Date".toList)) (row.get ("date".toList)))

/-- Model of the record input built from one record-sheet row. -/
def excelRecordInput (row : ExcelRow) : FinancialRecordInput :=
  { date := (jsOrCell (row.get ("Date".toList)) (row.get ("date".toList))).map cellToStr
    revenue := cellNumOr0 (jsOrCell (row.get ("Revenue".toList))
      (row.get ("revenue".toList)))
    expenses := cellNumOr0 (jsOrCell (row.get ("Expenses".toList))
      (row.get ("expenses".toList)))
    profit := cellNumOr0 (jsOrCell (row.get ("Profit".toList))
      (row.get ("profit".toList)))
    cashFlow := cellNumOr0 (jsOrCell (row.get ("Cash Flow".toList))
      (row.get ("cashFlow".toList))) }

/-- Model of the indicator built from one KPI-sheet row: `category` gets
whatever string the sheet carries (the source casts it unchecked),
defaulting to `operational`. -/
def excelKPI (row : ExcelRow) : KPIData :=
  { metric := cellStrOr (jsOrCell (row.get ("Metric".toList))
      (row.get ("metric".toList))) []
    value := cellNumOr0 (jsOrCell (row.get ("Value".toList)) (row.get ("value".toList)))
    target := cellNumOr0 (jsOrCell (row.get ("Target".toList)) (row.get ("target".toList)))
    unit := cellStrOr (jsOrCell (row.get ("Unit".toList)) (row.get ("unit".toList))) []
    category := cellStrOr (jsOrCell (row.get ("Category".toList))
      (row.get ("category".toList))) ("operational".toList) }

/-- Business-sheet phase of `importFromExcel`: import the first row of the
profile sheet, if any, counting 1 when a row was imported. -/
def excelStep1 (dm : DataManager) (wb : Workbook) (now : Nat) (freshId : Str) :
    DataManager × Nat :=
  match sheetOr wb ("Business Data".toList) ("Company".toList) with
  | none => (dm, 0)
  | some rows =>
    match rows.head? with
    | none => (dm, 0)
    | some row => (setBusinessData dm (excelBusinessPatch row) now freshId, 1)

/-- Record-sheet phase of `importFromExcel`: apply every row that has a
truthy date, counting each. -/
def excelStep2 (st : DataManager × Nat) (wb : Workbook) (today : Str) :
    DataManager × Nat :=
  match sheetOr wb ("Financial Records".toList) ("Financials".toList) with
  | none => st
  | some rows =>
    rows.foldl
      (fun acc row =>
        if rowHasDate row then
          (addFinancialRecord acc.1 (excelRecordInput row) today, acc.2 + 1)
        else acc)
      st

/-- KPI-sheet phase of `importFromExcel`: rows with a non-empty metric name
wholesale-replace the indicator collection when there is at least one. -/
def excelStep3 (st : DataManager × Nat) (wb : Workbook) : DataManager × Nat :=
  match sheetOr wb ("KPIs".toList) ("Metrics".toList) with
  | none => st
  | some rows =>
    let kpiData := (rows.map excelKPI).filter (fun k => !k.metric.isEmpty)
    if 0 < kpiData.length then (setKPIData st.1 kpiData, st.2 + kpiData.length)
    else st

/-- Model of `DataManager.importFromExcel` on an already-parsed workbook
(the exception-free path). -/
def importFromExcel (dm : DataManager) (wb : Workbook) (now : Nat) (freshId : Str)
    (today : Str) : DataManager × ImportResult :=
  let go := excelStep3 (excelStep2 (excelStep1 dm wb now freshId) wb today) wb
  (go.1,
    { success := true
      message := ("Successfully imported ".toList) ++ natToDigits go.2
        ++ (" records".toList) })

/-- Count the spec ascribes to the profile sheet: 1 when a profile row was
imported. -/
def excelProfileCount (wb : Workbook) : Nat :=
  match sheetOr wb ("Business Data".toList) ("Company".toList) with
  | none => 0
  | some rows => if rows.isEmpty then 0 else 1

/-- Count the spec ascribes to the record sheet: one per imported row. -/
def excelRecordCount (wb : Workbook) : Nat :=
  match sheetOr wb ("Financial Records".toList) ("Financials".toList) with
  | none => 0
  | some rows => (rows.filter rowHasDate).length

/-- Count the spec ascribes to the indicator sheet: the number of imported
indicators. -/
def excelKPICount (wb : Workbook) : Nat :=
  match sheetOr wb ("KPIs".toList) ("Metrics".toList) with
  | none => 0
  | some rows => ((rows.map excelKPI).filter (fun k => !k.metric.isEmpty)).length

theorem excelStep1_snd (dm : DataManager) (wb : Workbook) (now : Nat) (freshId : Str) :
    (excelStep1 dm wb now freshId).2 = excelProfileCount wb := by
  unfold excelStep1 excelProfileCount
  cases sheetOr wb ("Business Data".toList) ("Company".toList) with
  | none => rfl
  | some rows =>
    cases rows with
    | nil => rfl
    | cons r rs => rfl

theorem excelStep2_count (rows : List ExcelRow) (today : Str) :
    ∀ st : DataManager × Nat,
    (rows.foldl
      (fun acc row =>
        if rowHasDate row then
          (addFinancialRecord acc.1 (excelRecordInput row) today, acc.2 + 1)
        else acc)
      st).2 = st.2 + (rows.filter rowHasDate).length := by
  induction rows with
  | nil =>
    intro st
    simp
  | cons row rs ih =>
    intro st
    rw [List.foldl_cons, List.filter_cons]
    by_cases h : rowHasDate row = true
    · rw [if_pos h, if_pos h, ih]
      simp only [List.length_cons]
      omega
    · rw [if_neg h, if_neg h, ih]

theorem excelStep2_snd (st : DataManager × Nat) (wb : Workbook) (today : Str) :
    (excelStep2 st wb today).2 = st.2 + excelRecordCount wb := by
  unfold excelStep2 excelRecordCount
  cases sheetOr wb ("Financial Records".toList) ("Financials".toList) with
  | none => simp
  | some rows => exact excelStep2_count rows today st

theorem excelStep3_snd (st : DataManager × Nat) (wb : Workbook) :
    (excelStep3 st wb).2 = st.2 + excelKPICount wb := by
  unfold excelStep3 excelKPICount
  cases sheetOr wb ("KPIs".toList) ("Metrics".toList) with
  | none => simp
  | some rows =>
    dsimp only
    by_cases h : 0 < ((rows.map excelKPI).filter (fun k => !k.metric.isEmpty)).length
    · rw [if_pos h]
    · rw [if_neg h]
      omega

theorem excelStep1_kpiData (dm : DataManager) (wb : Workbook) (now : Nat) (freshId : Str) :
    (excelStep1 dm wb now freshId).1.kpiData = dm.kpiData := by
  unfold excelStep1
  cases sheetOr wb ("Business Data".toList) ("Company".toList) with
  | none => rfl
  | some rows =>
    cases rows with
    | nil => rfl
    | cons r rs => rfl

theorem excelStep2_fold_kpiData (rows : List ExcelRow) (today : Str) :
    ∀ st : DataManager × Nat,
    ((rows.foldl
      (fun acc row =>
        if rowHasDate row then
          (addFinancialRecord acc.1 (excelRecordInput row) today, acc.2 + 1)
        else acc)
      st).1).kpiData = st.1.kpiData := by
  induction rows with
  | nil =>
    intro st
    rfl
  | cons row rs ih =>
    intro st
    rw [List.foldl_cons]
    by_cases h : rowHasDate row = true
    · rw [if_pos h, ih]
      rfl
    · rw [if_neg h]
      exact ih st

theorem excelStep2_kpiData (st : DataManager × Nat) (wb : Workbook) (today : Str) :
    (excelStep2 st wb today).1.kpiData = st.1.kpiData := by
  unfold excelStep2
  cases sheetOr wb ("Financial Records".toList) ("Financials".toList) with
  | none => rfl
  | some rows => exact excelStep2_fold_kpiData rows today st

/-- C8: on the exception-free path, spreadsheet import always reports
success, and the reported count is 1 when a profile row was imported, plus
one per imported record row, plus one per imported indicator — also when
no sheet matched (count 0, still success). -/
theorem C8_excel_import_count (dm : DataManager) (wb : Workbook) (now : Nat)
    (freshId : Str) (today : Str) :
    (importFromExcel dm wb now freshId today).2.success = true ∧
    (importFromExcel dm wb now freshId today).2.message
      = ("Successfully imported ".toList)
        ++ natToDigits (excelProfileCount wb + excelRecordCount wb + excelKPICount wb)
        ++ (" records".toList) := by
  constructor
  · rfl
  · show ("Successfully imported ".toList)
      ++ natToDigits (excelStep3 (excelStep2 (excelStep1 dm wb now freshId) wb today) wb).2
      ++ (" records".toList) = _
    rw [excelStep3_snd, excelStep2_snd, excelStep1_snd]

/-- C10: when the workbook has a KPI sheet, the rows with a non-empty
metric name wholesale-replace the indicator collection as soon as there is
at least one of them, and when every row's metric name is empty the
pre-existing indicator collection is left unchanged. -/
theorem C10_kpi_sheet_semantics (dm : DataManager) (wb : Workbook) (now : Nat)
    (freshId : Str) (today : Str) (rows : List ExcelRow)
    (hsheet : sheetOr wb ("KPIs".toList) ("Metrics".toList) = some rows) :
    ((rows.map excelKPI).filter (fun k => !k.metric.isEmpty) ≠ [] →
      (importFromExcel dm wb now freshId today).1.kpiData
        = (rows.map excelKPI).filter (fun k => !k.metric.isEmpty)) ∧
    ((rows.map excelKPI).filter (fun k => !k.metric.isEmpty) = [] →
      (importFromExcel dm wb now freshId today).1.kpiData = dm.kpiData) := by
  have hpre : (excelStep2 (excelStep1 dm wb now freshId) wb today).1.kpiData
      = dm.kpiData := by
    rw [excelStep2_kpiData, excelStep1_kpiData]
  have hmain : (importFromExcel dm wb now freshId today).1.kpiData
      = (excelStep3 (excelStep2 (excelStep1 dm wb now freshId) wb today) wb).1.kpiData := rfl
  constructor
  · intro hne
    rw [hmain]
    simp only [excelStep3, hsheet]
    rw [if_pos (List.length_pos.mpr hne)]
    simp [setKPIData]
  · intro hnil
    rw [hmain]
    simp only [excelStep3, hsheet]
    rw [hnil]
    simp only [List.length_nil, lt_irrefl, if_false]
    exact hpre

/-- KPI-sheet row carrying a metric name. -/
def kpiRowNamed : ExcelRow :=
  ⟨[("Metric".toList, CellVal.str ("conversion".toList)),
    ("Value".toList, CellVal.num 5)]⟩

/-- KPI-sheet row with no metric name. -/
def kpiRowUnnamed : ExcelRow :=
  ⟨[("Value".toList, CellVal.num 5)]⟩

/-- Workbook whose KPI sheet holds one named indicator row. -/
def wbKpiNamed : Workbook := ⟨[("KPIs".toList, [kpiRowNamed])]⟩

/-- Workbook whose KPI sheet holds only a row with an empty metric name. -/
def wbKpiUnnamed : Workbook := ⟨[("KPIs".toList, [kpiRowUnnamed])]⟩

/-- Store holding one indicator, built through `addKPI`. -/
def dmOneKpi : DataManager := addKPI {} kpiA

/-- C10 witness: a named row wholesale-replaces the collection; a sheet of
only unnamed rows leaves the pre-existing collection unchanged. -/
theorem C10_kpi_sheet_semantics_witness :
    (importFromExcel dmOneKpi wbKpiNamed 0 ("g".toList) ("2024-06-01".toList)).1.kpiData
      = [{ metric := "conversion".toList, value := 5, target := 0, unit := [],
           category := "operational".toList }] ∧
    (importFromExcel dmOneKpi wbKpiUnnamed 0 ("g".toList) ("2024-06-01".toList)).1.kpiData
      = dmOneKpi.kpiData := by
  obtain ⟨h1, _⟩ := C10_kpi_sheet_semantics dmOneKpi wbKpiNamed 0 ("g".toList)
    ("2024-06-01".toList) [kpiRowNamed] (by decide)
  obtain ⟨_, h2⟩ := C10_kpi_sheet_semantics dmOneKpi wbKpiUnnamed 0 ("g".toList)
    ("2024-06-01".toList) [kpiRowUnnamed] (by decide)
  refine ⟨?_, h2 (by decide)⟩
  rw [h1 (by decide)]
  decide
